import Mathlib

/-!
Verification of the Elder Ministry Priority Allocation Survey data module
(`App.py`): catalog, allocation store, validator, persistence layer and the
admin gate, embedded shallowly.  File writes are modelled by an explicit
file-system record and an I/O fault environment; stateful module-level code
is modelled as explicit state-passing functions.
-/

namespace App

/-- The fixed item catalog (`ALL_ITEMS` in `App.py`). -/
def ALL_ITEMS : List String :=
  ["Building Maintenance",
   "Building Upgrades",
   "Children\x27s Ministry",
   "Children\x27s Plays",
   "Choir",
   "Congregational Care (deacons, pastoral care, etc.)",
   "Garden",
   "Handbell Choir",
   "Men\x27s Ministry",
   "Missions",
   "Office Expenses",
   "Office Staff",
   "Outreach events - Harvest Party, etc.",
   "Praise Band",
   "Preaching/Worship Leadership",
   "Small Groups",
   "Sound System",
   "Tech - Audio/Visual (sound system, streaming, etc.)",
   "Tech - Office/Building",
   "Women\x27s Ministry",
   "Youth Ministry"]

/-- The five fixed priority categories (`PRIORITIES` in `App.py`). -/
def PRIORITIES : List String :=
  ["Worship-centered",
   "Ministry/Spiritual Formation-centered",
   "Missions-Centered",
   "Community-Centered",
   "Support-Centered"]

/-- `PRIORITY_ITEMS = {p: ALL_ITEMS for p in PRIORITIES}`: the same items
under every category. -/
def PRIORITY_ITEMS (_p : String) : List String := ALL_ITEMS

/-- The per-session state: `st.session_state.allocations` (a mapping from
category and item to an integer amount) and the `submitted` flag. -/
structure AppState where
  allocations : String → String → Int
  submitted : Bool

/-- `init_state`: all-zero allocations, `submitted = False`. -/
def init_state : AppState := ⟨fun _ _ => 0, false⟩

/-- `get_subtotals_and_total`: per-category subtotals and the grand total. -/
def get_subtotals_and_total (s : AppState) : (String → Int) × Int :=
  let subtotals : String → Int :=
    fun p => ((PRIORITY_ITEMS p).map fun item => s.allocations p item).sum
  (subtotals, (PRIORITIES.map subtotals).sum)

/-- `clear_all`: every catalog `(category, item)` amount is set to 0 and the
`submitted` flag is cleared. -/
def clear_all (s : AppState) : AppState :=
  { allocations := fun p item =>
      if p ∈ PRIORITIES ∧ item ∈ PRIORITY_ITEMS p then 0 else s.allocations p item,
    submitted := false }

/-- One CSV-ready row produced by `allocations_rows`. -/
structure Row where
  timestamp : String
  priority : String
  item : String
  amount : Int
deriving DecidableEq

/-- `allocations_rows(timestamp_iso)`: flatten the allocations into rows,
keeping an entry exactly when `amt and amt > 0` holds, in category/item
enumeration order. -/
def allocations_rows (s : AppState) (timestamp_iso : String) : List Row :=
  PRIORITIES.flatMap fun p =>
    (PRIORITY_ITEMS p).filterMap fun item =>
      let amt := s.allocations p item
      if amt ≠ 0 ∧ 0 < amt then some ⟨timestamp_iso, p, item, amt⟩ else none

/-- The fixed four-column header written to both CSV files. -/
def csv_header : List String := ["timestamp", "priority", "item", "amount"]

/-- A `Row` as the list of CSV cells `csv.writer` receives (the amount cell
is its decimal rendering). -/
def rowToCsv (r : Row) : List String :=
  [r.timestamp, r.priority, r.item, toString r.amount]

/-- `ts_safe = rows[0][0].replace(":", "-")` acts characterwise: each colon
becomes a hyphen. -/
def fileSafeChar (c : Char) : Char := if c = ':' then '-' else c

/-- Python `s.replace(":", "-")` for a single-character pattern. -/
def replaceColons (s : String) : String := ⟨s.data.map fileSafeChar⟩

/-- The per-submission file name `submission_{ts_safe}.csv`. -/
def per_submission_filename (ts : String) : String :=
  "submission_" ++ replaceColons ts ++ ".csv"

/-- `os.path.join("submissions", ...)` applied to the per-submission name. -/
def per_submission_path (ts : String) : String :=
  "submissions/" ++ per_submission_filename ts

/-- The flat-file state: `responses.csv` (`none` while the file does not
exist) and the contents of the `submissions/` directory, each file a list
of CSV records. -/
structure FS where
  master : Option (List (List String))
  submissions : String → Option (List (List String))

/-- An I/O fault environment for one `write_csv` call: each field injects
the exception message raised by the corresponding operating-system call
(`os.makedirs`, creating `responses.csv`, appending to it, writing the
per-submission file), `none` meaning the call succeeds. -/
structure Faults where
  makedirs : Option String
  createMaster : Option String
  appendMaster : Option String
  writeSub : Option String

/-- The fault-free environment. -/
def noFaults : Faults := ⟨none, none, none, none⟩

/-- Outcome of `write_csv`: the Python function either returns a pair
`(ok, err)` or lets an exception escape to its caller. -/
inductive WriteResult where
  | raised (msg : String)
  | returned (ok : Bool) (err : Option String)
deriving DecidableEq

/-- `write_csv(rows)` from `App.py`: `os.makedirs` runs outside the
`try` block, so a fault there escapes; inside the `try`, the master CSV is
created with its header if missing (`FileExistsError` is swallowed), the
rows are appended to it, and a complete per-submission file (header plus
rows) is written under a name derived from `rows[0][0]`; any exception
inside the `try` yields `(False, str(e))` — for empty `rows`, indexing
`rows[0]` raises an `IndexError` whose message is
`"list index out of range"`. -/
def write_csv (io : Faults) (fs : FS) (rows : List Row) : FS × WriteResult :=
  match io.makedirs with
  | some msg => (fs, WriteResult.raised msg)
  | none =>
    let created : FS ⊕ String :=
      match fs.master, io.createMaster with
      | none, some msg => Sum.inr msg
      | none, none => Sum.inl { fs with master := some [csv_header] }
      | some _, _ => Sum.inl fs
    match created with
    | Sum.inr msg => (fs, WriteResult.returned false (some msg))
    | Sum.inl fs1 =>
      match io.appendMaster with
      | some msg => (fs1, WriteResult.returned false (some msg))
      | none =>
        let fs2 : FS :=
          { fs1 with master := fs1.master.map fun recs => recs ++ rows.map rowToCsv }
        match rows with
        | [] => (fs2, WriteResult.returned false (some "list index out of range"))
        | r0 :: _ =>
          match io.writeSub with
          | some msg => (fs2, WriteResult.returned false (some msg))
          | none =>
            ({ fs2 with submissions := fun q =>
                if q = per_submission_path r0.timestamp
                then some (csv_header :: rows.map rowToCsv)
                else fs2.submissions q },
             WriteResult.returned true none)

/-- What the respondent-facing submit block reports. -/
inductive SubmitMsg where
  | notAttempted
  | noAllocations
  | saved
  | saveError (err : Option String)
  | crashed (msg : String)
deriving DecidableEq

/-- The module-level submit handling: the button is rendered with
`disabled=(total != 100)` (a disabled button cannot fire), the block is
guarded by `if submitted and total == 100`, empty rows are refused, and on
a successful `write_csv` the store is cleared; on failure it is left
untouched and the error is surfaced. -/
def submit_step (io : Faults) (clicked : Bool) (s : AppState) (fs : FS) (ts : String) :
    AppState × FS × SubmitMsg :=
  let total := (get_subtotals_and_total s).2
  let submitted := clicked && !(total != 100)
  if submitted && (total == 100) then
    let rows := allocations_rows s ts
    if rows.isEmpty then (s, fs, SubmitMsg.noAllocations)
    else
      match write_csv io fs rows with
      | (fs1, WriteResult.returned true _) =>
        (clear_all { s with submitted := true }, fs1, SubmitMsg.saved)
      | (fs1, WriteResult.returned false err) => (s, fs1, SubmitMsg.saveError err)
      | (fs1, WriteResult.raised msg) => (s, fs1, SubmitMsg.crashed msg)
  else (s, fs, SubmitMsg.notAttempted)

/-- The guidance message rendered under the totals. -/
inductive Guidance where
  | over (excess : Int)
  | under (shortfall : Int)
  | exact
deriving DecidableEq

/-- The guidance branch: `total > 100` reports the excess, `total < 100`
the shortfall, otherwise success. -/
def guidance (total : Int) : Guidance :=
  if total > 100 then Guidance.over (total - 100)
  else if total < 100 then Guidance.under (100 - total)
  else Guidance.exact

/-- The `disabled=(total != 100)` argument of the submit button. -/
def submit_button_disabled (total : Int) : Bool := total != 100

/-- Python truthiness of the optional admin secret:
`bool(None) = bool("") = False`. -/
def truthy : Option String → Bool
  | none => false
  | some s => !s.isEmpty

/-- `owner_mode = bool(admin_key_secret) and entered_key == admin_key_secret`. -/
def owner_mode (admin_key_secret : Option String) (entered_key : String) : Bool :=
  truthy admin_key_secret &&
    match admin_key_secret with
    | some s => entered_key == s
    | none => false

/-- A sequence of submit attempts, each given by a session state and a
timestamp, run fault-free against the file system through `write_csv`;
the flag records whether every call reported success. -/
def run_submissions : FS → List (AppState × String) → FS × Bool
  | fs, [] => (fs, true)
  | fs, sub :: rest =>
    match write_csv noFaults fs (allocations_rows sub.1 sub.2) with
    | (fs1, WriteResult.returned ok _) =>
      let out := run_submissions fs1 rest
      (out.1, ok && out.2)
    | (fs1, WriteResult.raised _) => (fs1, false)

/-- The number of catalog entries with a positive amount. -/
def positive_entry_count (s : AppState) : Nat :=
  (PRIORITIES.flatMap fun p =>
    (PRIORITY_ITEMS p).filter fun item => 0 < s.allocations p item).length

/-- The data records a list of submissions contributes to the master file,
in submission order, each submission in category/item enumeration order. -/
def masterDataRecords (subs : List (AppState × String)) : List (List String) :=
  (subs.map fun u => (allocations_rows u.1 u.2).map rowToCsv).flatten

/-- Modelled from the spec: reading back a CSV `amount` cell as a plain
decimal integer (the reading side lives in the admin view's CSV loader,
outside this module's source). -/
def parseAmount (s : String) : Option Int :=
  match s.data with
  | [] => none
  | cs =>
    if cs.all Char.isDigit
    then some (Int.ofNat (cs.foldl (fun acc c => acc * 10 + (c.toNat - 48)) 0))
    else none

/-- Modelled from the spec: one re-read data record of a per-submission
file, as a `(category, item, amount)` tuple. -/
def parseRecord : List String → Option (String × String × Int)
  | [_ts, p, item, a] => (parseAmount a).map fun n => (p, item, n)
  | _ => none

/-- Modelled from the spec: re-reading a per-submission file — skip the
header record, parse each remaining record. -/
def readSubmission (content : List (List String)) : List (String × String × Int) :=
  content.tail.filterMap parseRecord

/-- The `(category, item, amount)` tuples with positive amount, in
category/item enumeration order. -/
def positiveTuples (s : AppState) : List (String × String × Int) :=
  PRIORITIES.flatMap fun p =>
    (PRIORITY_ITEMS p).filterMap fun item =>
      if 0 < s.allocations p item
      then some (p, item, s.allocations p item)
      else none

/-- Positional constraints of a `datetime.isoformat()` timestamp character:
hyphens inside the date, colons inside the time, `T` separator, optional
fraction point, digits everywhere else. -/
def isoCharOk (i : Nat) (c : Char) : Bool :=
  if i = 4 ∨ i = 7 then c == '-'
  else if i = 13 ∨ i = 16 then c == ':'
  else if i = 10 then c == 'T'
  else if i = 19 then c == '.'
  else c.isDigit

/-- Check `isoCharOk` at every position, starting at index `i`. -/
def isoShapeAux : Nat → List Char → Bool
  | _, [] => true
  | i, c :: cs => isoCharOk i c && isoShapeAux (i + 1) cs

/-- An ISO-8601 timestamp as produced by `datetime.utcnow().isoformat()`:
`YYYY-MM-DDTHH:MM:SS` optionally followed by `.ffffff`. -/
def isIsoTimestamp (s : String) : Bool :=
  (s.length = 19 ∨ s.length = 26) && isoShapeAux 0 s.data

/-- The fault environment where appending to the master file raises. -/
def appendFault (msg : String) : Faults := ⟨none, none, some msg, none⟩

/-- The fault environment where writing the per-submission file raises. -/
def writeFault (msg : String) : Faults := ⟨none, none, none, some msg⟩

/-- The empty file system: no master file, no per-submission files. -/
def fs0 : FS := ⟨none, fun _ => none⟩

/-- A concrete session state allocating 50 to Choir under the first
priority and 50 to Missions under the third, total 100. -/
def exState : AppState :=
  ⟨fun p item =>
    if p = "Worship-centered" ∧ item = "Choir" then 50
    else if p = "Missions-Centered" ∧ item = "Missions" then 50
    else 0,
   false⟩

/-- A concrete session state allocating 85 to Choir, total 85. -/
def st85 : AppState :=
  ⟨fun p item => if p = "Worship-centered" ∧ item = "Choir" then 85 else 0, false⟩

/-- A fixed concrete submission timestamp. -/
def ts1 : String := "2025-01-01T00:00:00"

/-! ## Helper lemmas -/

theorem amt_cond (a : Int) : (a ≠ 0 ∧ 0 < a) = (0 < a) := by
  apply propext
  constructor
  · exact fun h => h.2
  · exact fun h => ⟨by omega, h⟩

theorem allocations_rows_eq (s : AppState) (ts : String) :
    allocations_rows s ts =
      PRIORITIES.flatMap fun p =>
        (PRIORITY_ITEMS p).filterMap fun item =>
          if 0 < s.allocations p item
          then some ⟨ts, p, item, s.allocations p item⟩ else none := by
  unfold allocations_rows
  simp only [amt_cond]

theorem mem_allocations_rows {s : AppState} {ts : String} {r : Row} :
    r ∈ allocations_rows s ts ↔
      ∃ p ∈ PRIORITIES, ∃ item ∈ ALL_ITEMS,
        0 < s.allocations p item ∧ r = Row.mk ts p item (s.allocations p item) := by
  rw [allocations_rows_eq]
  simp only [List.mem_flatMap, List.mem_filterMap, PRIORITY_ITEMS,
    Option.ite_none_right_eq_some, Option.some.injEq]
  constructor
  · rintro ⟨p, hp, item, hit, hpos, hr⟩
    exact ⟨p, hp, item, hit, hpos, hr.symm⟩
  · rintro ⟨p, hp, item, hit, hpos, hr⟩
    exact ⟨p, hp, item, hit, hpos, hr.symm⟩

theorem timestamp_of_mem_allocations_rows {s : AppState} {ts : String} {r : Row}
    (h : r ∈ allocations_rows s ts) : r.timestamp = ts := by
  obtain ⟨p, _, item, _, _, rfl⟩ := mem_allocations_rows.mp h
  rfl

theorem amount_pos_of_mem_allocations_rows {s : AppState} {ts : String} {r : Row}
    (h : r ∈ allocations_rows s ts) : 0 < r.amount := by
  obtain ⟨p, _, item, _, hpos, rfl⟩ := mem_allocations_rows.mp h
  exact hpos

theorem length_filterMap_ite {α β : Type} (g : α → β) (c : α → Prop) [DecidablePred c]
    (l : List α) :
    (l.filterMap fun a => if c a then some (g a) else none).length
      = (l.filter fun a => decide (c a)).length := by
  induction l with
  | nil => rfl
  | cons a t ih => by_cases h : c a <;> simp [List.filterMap_cons, List.filter_cons, h, ih]

theorem length_flatMap_congr {α β γ : Type} (F : α → List β) (G : α → List γ)
    (h : ∀ a, (F a).length = (G a).length) :
    ∀ l : List α, (l.flatMap F).length = (l.flatMap G).length := by
  intro l
  induction l with
  | nil => rfl
  | cons a t ih => simp only [List.flatMap_cons, List.length_append, h, ih]

theorem length_allocations_rows (s : AppState) (ts : String) :
    (allocations_rows s ts).length = positive_entry_count s := by
  rw [allocations_rows_eq]
  unfold positive_entry_count
  exact length_flatMap_congr _ _
    (fun p => length_filterMap_ite (fun item => Row.mk ts p item (s.allocations p item))
      (fun item => 0 < s.allocations p item) (PRIORITY_ITEMS p)) PRIORITIES

theorem write_csv_cons_someMaster (m : List (List String))
    (sb : String → Option (List (List String))) (r : Row) (rs : List Row) :
    write_csv noFaults ⟨some m, sb⟩ (r :: rs) =
      (⟨some (m ++ (r :: rs).map rowToCsv),
        fun q => if q = per_submission_path r.timestamp
                 then some (csv_header :: (r :: rs).map rowToCsv) else sb q⟩,
       WriteResult.returned true none) := rfl

theorem write_csv_cons_noMaster (sb : String → Option (List (List String)))
    (r : Row) (rs : List Row) :
    write_csv noFaults ⟨none, sb⟩ (r :: rs) =
      (⟨some (csv_header :: (r :: rs).map rowToCsv),
        fun q => if q = per_submission_path r.timestamp
                 then some (csv_header :: (r :: rs).map rowToCsv) else sb q⟩,
       WriteResult.returned true none) := rfl

theorem write_csv_appendFault (msg : String) (fs : FS) (rows : List Row) :
    (write_csv (appendFault msg) fs rows).2 = WriteResult.returned false (some msg) := by
  obtain ⟨m, sb⟩ := fs
  cases m <;> rfl

theorem write_csv_writeFault (msg : String) (fs : FS) (r : Row) (rs : List Row) :
    (write_csv (writeFault msg) fs (r :: rs)).2 = WriteResult.returned false (some msg) := by
  obtain ⟨m, sb⟩ := fs
  cases m <;> rfl

theorem submit_step_total_ne (io : Faults) (clicked : Bool) (s : AppState) (fs : FS)
    (ts : String) (h : (get_subtotals_and_total s).2 ≠ 100) :
    submit_step io clicked s fs ts = (s, fs, SubmitMsg.notAttempted) := by
  unfold submit_step
  simp [h]

/-! ## Claims -/

/-- C1: whenever `total() != 100`, the submission action is a no-op — no
rows are produced, the file system is untouched, and the Allocation Store
is unchanged. -/
theorem C1_submit_noop (io : Faults) (clicked : Bool) (s : AppState) (fs : FS)
    (ts : String) (h : (get_subtotals_and_total s).2 ≠ 100) :
    submit_step io clicked s fs ts = (s, fs, SubmitMsg.notAttempted) :=
  submit_step_total_ne io clicked s fs ts h

/-- C1 witness: the all-zero initial state has total 0, so submitting is a
no-op. -/
theorem C1_submit_noop_witness :
    submit_step noFaults true init_state fs0 ts1 = (init_state, fs0, SubmitMsg.notAttempted) :=
  C1_submit_noop noFaults true init_state fs0 ts1 (by decide)

/-- C7: the validator classifies the grand total as over-budget with the
excess when above 100, under-budget with the shortfall when below, exactly
satisfied at 100; the submit button is enabled exactly at 100 and a submit
attempt has an effect only at 100. -/
theorem C7_validator_classification (s : AppState) :
    (100 < (get_subtotals_and_total s).2 →
      guidance (get_subtotals_and_total s).2 =
        Guidance.over ((get_subtotals_and_total s).2 - 100)) ∧
    ((get_subtotals_and_total s).2 < 100 →
      guidance (get_subtotals_and_total s).2 =
        Guidance.under (100 - (get_subtotals_and_total s).2)) ∧
    ((get_subtotals_and_total s).2 = 100 →
      guidance (get_subtotals_and_total s).2 = Guidance.exact) ∧
    (submit_button_disabled (get_subtotals_and_total s).2 = false ↔
      (get_subtotals_and_total s).2 = 100) ∧
    (∀ io clicked fs ts, (submit_step io clicked s fs ts).2.2 ≠ SubmitMsg.notAttempted →
      (get_subtotals_and_total s).2 = 100) := by
  refine ⟨fun h => ?_, fun h => ?_, fun h => ?_, ?_, ?_⟩
  · unfold guidance; rw [if_pos h]
  · unfold guidance; rw [if_neg (by omega), if_pos h]
  · unfold guidance; rw [if_neg (by omega), if_neg (by omega)]
  · unfold submit_button_disabled
    simp
  · intro io clicked fs ts hne
    by_contra h
    exact hne (by rw [submit_step_total_ne io clicked s fs ts h])

/-- C7 witness: at a state with total 85, the shortfall of 15 is
reported. -/
theorem C7_validator_classification_witness :
    guidance (get_subtotals_and_total st85).2 = Guidance.under 15 :=
  (C7_validator_classification st85).2.1 (by decide)

/-- C8 counterexample: with the secret configured as the empty string and
the empty key entered, the key equals the secret but the panel does not
unlock — the claimed biconditional fails. -/
theorem C8_counterexample :
    ¬ (owner_mode (some "") "" = true ↔ ("" : String) = "") := by
  decide

/-- C8 amended: with no secret configured, or with the empty string
configured, the panel never unlocks; with a non-empty secret configured it
unlocks exactly when the entered key equals the secret. -/
theorem C8_admin_gate (secret : Option String) (entered : String) :
    (secret = none → owner_mode secret entered = false) ∧
    (secret = some "" → owner_mode secret entered = false) ∧
    (∀ k, secret = some k → k ≠ "" →
      (owner_mode secret entered = true ↔ entered = k)) := by
  refine ⟨fun h => ?_, fun h => ?_, fun k hk hne => ?_⟩
  · subst h; rfl
  · subst h; rfl
  · subst hk
    unfold owner_mode truthy
    constructor
    · intro h
      have := (Bool.and_eq_true _ _).mp h
      exact (beq_iff_eq ..).mp this.2
    · intro h
      subst h
      have hemp : entered.isEmpty = false := by
        cases he : entered.isEmpty
        · rfl
        · exact absurd ((String.isEmpty_iff entered).mp he) hne
      simp [hemp]

/-- C8 amended witness: no secret, empty secret, and a matching non-empty
key, each at a concrete input. -/
theorem C8_admin_gate_witness :
    owner_mode none "anything" = false ∧
    owner_mode (some "") "anything" = false ∧
    owner_mode (some "key") "key" = true :=
  ⟨(C8_admin_gate none "anything").1 rfl,
   (C8_admin_gate (some "") "anything").2.1 rfl,
   ((C8_admin_gate (some "key") "key").2.2 "key" rfl (by decide)).mpr rfl⟩

/-- C10: an empty-string secret never unlocks the panel, and the panel
unlocks only when the configured secret is a non-empty string. -/
theorem C10_empty_secret_fails_closed :
    (∀ entered, owner_mode (some "") entered = false) ∧
    (∀ secret entered, owner_mode secret entered = true →
      ∃ k, secret = some k ∧ k ≠ "") := by
  constructor
  · intro entered; rfl
  · intro secret entered h
    match secret with
    | none =>
      have hf : owner_mode none entered = false := rfl
      rw [hf] at h
      exact absurd h Bool.false_ne_true
    | some k =>
      refine ⟨k, rfl, ?_⟩
      intro hk
      subst hk
      have hf : owner_mode (some "") entered = false := rfl
      rw [hf] at h
      exact absurd h Bool.false_ne_true

/-- C10 witness: the empty-string secret rejects a concrete key, and a
concrete unlock exhibits a non-empty secret. -/
theorem C10_empty_secret_fails_closed_witness :
    owner_mode (some "") "guess" = false ∧
    ∃ k, (some "key" : Option String) = some k ∧ k ≠ "" :=
  ⟨C10_empty_secret_fails_closed.1 "guess",
   C10_empty_secret_fails_closed.2 (some "key") "key" rfl⟩

/-- When the total is exactly 100 and the button fires, the submit block
runs: refuse empty rows, otherwise dispatch on the `write_csv` outcome. -/
theorem submit_step_submit (io : Faults) (s : AppState) (fs : FS) (ts : String)
    (htotal : (get_subtotals_and_total s).2 = 100) :
    submit_step io true s fs ts =
      (if (allocations_rows s ts).isEmpty then (s, fs, SubmitMsg.noAllocations)
       else match write_csv io fs (allocations_rows s ts) with
        | (fs1, WriteResult.returned true _) =>
          (clear_all { s with submitted := true }, fs1, SubmitMsg.saved)
        | (fs1, WriteResult.returned false err) => (s, fs1, SubmitMsg.saveError err)
        | (fs1, WriteResult.raised msg) => (s, fs1, SubmitMsg.crashed msg)) := by
  unfold submit_step
  rw [htotal]
  rfl

/-- C2: whenever the submit block reports a successful save (so `write_csv`
returned success), the resulting Allocation Store is all-zero on every
catalog entry. -/
theorem C2_store_cleared_on_success (io : Faults) (clicked : Bool) (s : AppState)
    (fs : FS) (ts : String) (s2 : AppState) (fs2 : FS)
    (h : submit_step io clicked s fs ts = (s2, fs2, SubmitMsg.saved)) :
    ∀ p ∈ PRIORITIES, ∀ item ∈ PRIORITY_ITEMS p, s2.allocations p item = 0 := by
  intro p hp item hit
  simp only [submit_step] at h
  split at h
  · split at h
    · simp [Prod.ext_iff] at h
    · rcases hw : write_csv io fs (allocations_rows s ts) with ⟨fs1, res⟩
      rw [hw] at h
      match res with
      | WriteResult.returned true e =>
        have hs2 : clear_all { s with submitted := true } = s2 :=
          congrArg (fun x => x.1) h
        rw [← hs2]
        simp [clear_all, hp, hit]
      | WriteResult.returned false e => simp [Prod.ext_iff] at h
      | WriteResult.raised m => simp [Prod.ext_iff] at h
  · simp [Prod.ext_iff] at h

/-- C2 witness: a concrete successful submission (Choir 50, Missions 50)
leaves a zero amount behind. -/
theorem C2_store_cleared_on_success_witness :
    (submit_step noFaults true exState fs0 ts1).1.allocations "Worship-centered" "Choir" = 0 :=
  C2_store_cleared_on_success noFaults true exState fs0 ts1
    (submit_step noFaults true exState fs0 ts1).1
    (submit_step noFaults true exState fs0 ts1).2.1 rfl
    "Worship-centered" (by decide) "Choir" (by decide)

/-- C3: if the master append or the per-submission write raises an I/O
fault during a real submission, the operation is reported as failed with
the underlying fault message and the Allocation Store keeps its
pre-submission amounts. -/
theorem C3_io_fault_keeps_store (io : Faults) (msg : String) (s : AppState) (fs : FS)
    (ts : String)
    (hio : io = appendFault msg ∨ io = writeFault msg)
    (htotal : (get_subtotals_and_total s).2 = 100)
    (hne : allocations_rows s ts ≠ []) :
    (submit_step io true s fs ts).1 = s ∧
    (submit_step io true s fs ts).2.2 = SubmitMsg.saveError (some msg) := by
  obtain ⟨r, rs, hrs⟩ := List.exists_cons_of_ne_nil hne
  have hres : (write_csv io fs (allocations_rows s ts)).2
      = WriteResult.returned false (some msg) := by
    rcases hio with h | h
    · rw [h]; exact write_csv_appendFault msg fs _
    · rw [h, hrs]; exact write_csv_writeFault msg fs r rs
  rw [submit_step_submit io s fs ts htotal, hrs]
  rw [hrs] at hres
  rcases hw : write_csv io fs (r :: rs) with ⟨fs1, res⟩
  rw [hw] at hres
  simp only at hres
  subst hres
  exact ⟨rfl, rfl⟩

/-- C3 witness: a concrete "disk full" fault on the master append leaves
the concrete 50/50 store intact and surfaces the message. -/
theorem C3_io_fault_keeps_store_witness :
    (submit_step (appendFault "disk full") true exState fs0 ts1).1 = exState ∧
    (submit_step (appendFault "disk full") true exState fs0 ts1).2.2 =
      SubmitMsg.saveError (some "disk full") :=
  C3_io_fault_keeps_store (appendFault "disk full") "disk full" exState fs0 ts1
    (Or.inl rfl) (by decide) (by decide)

/-- C9 counterexample: a fault in `os.makedirs` — which runs before the
`try` block — escapes `write_csv` instead of being turned into a
`(False, message)` return. -/
theorem C9_counterexample :
    ¬ ∃ ok err, (write_csv ⟨some "permission denied", none, none, none⟩ fs0 []).2 =
      WriteResult.returned ok err := by
  rintro ⟨ok, err, h⟩
  have hr : (write_csv ⟨some "permission denied", none, none, none⟩ fs0 []).2 =
      WriteResult.raised "permission denied" := rfl
  rw [hr] at h
  exact WriteResult.noConfusion h

/-- C9 amended: provided the `os.makedirs` call does not raise, `write_csv`
always returns a `(ok, err)` pair — no exception reaches the caller — and
in the fault-free environment an empty rows list yields
`(False, "list index out of range")` rather than an uncaught `IndexError`. -/
theorem C9_write_csv_total (io : Faults) (fs : FS) (rows : List Row)
    (hmk : io.makedirs = none) :
    (∃ ok err, (write_csv io fs rows).2 = WriteResult.returned ok err) ∧
    (io = noFaults → rows = [] →
      (write_csv io fs rows).2 =
        WriteResult.returned false (some "list index out of range")) := by
  obtain ⟨mk, cr, ap, ws⟩ := io
  change mk = none at hmk
  subst hmk
  obtain ⟨m, sb⟩ := fs
  constructor
  · cases m <;> cases cr <;> cases ap <;> cases rows <;> cases ws <;> exact ⟨_, _, rfl⟩
  · intro hio hrows
    subst hrows
    unfold noFaults at hio
    injection hio with h1 h2 h3 h4
    subst h2; subst h3; subst h4
    cases m <;> rfl

/-- C9 witness: the fault-free empty-rows call returns the caught
`IndexError` message as a failure. -/
theorem C9_write_csv_total_witness :
    (write_csv noFaults fs0 []).2 =
      WriteResult.returned false (some "list index out of range") :=
  (C9_write_csv_total noFaults fs0 [] rfl).2 rfl rfl

/-! ## Persistence helpers for the master-file and round-trip claims -/

theorem toString_ne_amount {a : Int} (h1 : 0 < a) (h2 : a ≤ 100) :
    toString a ≠ "amount" := by
  have hb : ∀ n : Fin 101, toString (Int.ofNat n.val) ≠ "amount" := by decide
  have ha : a = Int.ofNat a.toNat := (Int.toNat_of_nonneg (le_of_lt h1)).symm
  have hlt : a.toNat < 101 := by omega
  have hn := hb ⟨a.toNat, hlt⟩
  rwa [← ha] at hn

theorem parseAmount_toString {a : Int} (h1 : 0 < a) (h2 : a ≤ 100) :
    parseAmount (toString a) = some a := by
  have hb : ∀ n : Fin 101,
      parseAmount (toString (Int.ofNat n.val)) = some (Int.ofNat n.val) := by decide
  have ha : a = Int.ofNat a.toNat := (Int.toNat_of_nonneg (le_of_lt h1)).symm
  have hlt : a.toNat < 101 := by omega
  have hn := hb ⟨a.toNat, hlt⟩
  rwa [← ha] at hn

theorem amount_le_of_mem_allocations_rows {s : AppState} {ts : String} {r : Row}
    (hbound : ∀ p ∈ PRIORITIES, ∀ item ∈ PRIORITY_ITEMS p, s.allocations p item ≤ 100)
    (h : r ∈ allocations_rows s ts) : r.amount ≤ 100 := by
  obtain ⟨p, hp, item, hit, hpos, rfl⟩ := mem_allocations_rows.mp h
  exact hbound p hp item hit

theorem parseRecord_rowToCsv {r : Row} (h1 : 0 < r.amount) (h2 : r.amount ≤ 100) :
    parseRecord (rowToCsv r) = some (r.priority, r.item, r.amount) := by
  show Option.map (fun n => (r.priority, r.item, n)) (parseAmount (toString r.amount))
      = some (r.priority, r.item, r.amount)
  rw [parseAmount_toString h1 h2]
  rfl

theorem filterMap_eq_map_of_forall {α β : Type} (f : α → Option β) (g : α → β) :
    ∀ l : List α, (∀ a ∈ l, f a = some (g a)) → l.filterMap f = l.map g := by
  intro l h
  induction l with
  | nil => rfl
  | cons a t ih =>
    simp only [List.filterMap_cons, h a (List.mem_cons_self a t), List.map_cons,
      ih fun b hb => h b (List.mem_cons_of_mem a hb)]

theorem map_proj_allocations_rows (s : AppState) (ts : String) :
    (allocations_rows s ts).map (fun r => (r.priority, r.item, r.amount))
      = positiveTuples s := by
  rw [allocations_rows_eq]
  unfold positiveTuples
  rw [List.map_flatMap]
  congr 1
  funext p
  rw [List.map_filterMap]
  congr 1
  funext item
  by_cases h : 0 < s.allocations p item <;> simp [h]

theorem run_submissions_cons (fs : FS) (u : AppState × String)
    (rest : List (AppState × String)) (fs1 : FS) (ok : Bool) (e : Option String)
    (hw : write_csv noFaults fs (allocations_rows u.1 u.2) = (fs1, WriteResult.returned ok e)) :
    run_submissions fs (u :: rest) =
      ((run_submissions fs1 rest).1, ok && (run_submissions fs1 rest).2) := by
  conv_lhs => unfold run_submissions
  rw [hw]

theorem run_submissions_someMaster (subs : List (AppState × String)) :
    ∀ (m : List (List String)) (sb : String → Option (List (List String))),
      (∀ u ∈ subs, allocations_rows u.1 u.2 ≠ []) →
      (run_submissions ⟨some m, sb⟩ subs).1.master = some (m ++ masterDataRecords subs) ∧
      (run_submissions ⟨some m, sb⟩ subs).2 = true := by
  induction subs with
  | nil =>
    intro m sb _
    constructor
    · simp [run_submissions, masterDataRecords]
    · rfl
  | cons u rest ih =>
    intro m sb hne
    obtain ⟨r, rs, hrs⟩ := List.exists_cons_of_ne_nil (hne u (List.mem_cons_self u rest))
    have hw : write_csv noFaults ⟨some m, sb⟩ (allocations_rows u.1 u.2)
        = (⟨some (m ++ (allocations_rows u.1 u.2).map rowToCsv),
            fun q => if q = per_submission_path r.timestamp
                     then some (csv_header :: (allocations_rows u.1 u.2).map rowToCsv)
                     else sb q⟩,
           WriteResult.returned true none) := by
      rw [hrs]; exact write_csv_cons_someMaster m sb r rs
    rw [run_submissions_cons _ u rest _ true none hw]
    obtain ⟨ih1, ih2⟩ := ih (m ++ (allocations_rows u.1 u.2).map rowToCsv)
      (fun q => if q = per_submission_path r.timestamp
                then some (csv_header :: (allocations_rows u.1 u.2).map rowToCsv)
                else sb q)
      (fun v hv => hne v (List.mem_cons_of_mem u hv))
    constructor
    · rw [ih1]
      simp [masterDataRecords, List.append_assoc]
    · rw [ih2]
      rfl

theorem csv_header_not_mem_masterDataRecords (subs : List (AppState × String))
    (hbound : ∀ u ∈ subs, ∀ p ∈ PRIORITIES, ∀ item ∈ PRIORITY_ITEMS p,
      u.1.allocations p item ≤ 100) :
    csv_header ∉ masterDataRecords subs := by
  intro hmem
  unfold masterDataRecords at hmem
  rw [List.mem_flatten] at hmem
  obtain ⟨l, hl, hrec⟩ := hmem
  rw [List.mem_map] at hl
  obtain ⟨u, hu, rfl⟩ := hl
  rw [List.mem_map] at hrec
  obtain ⟨row, hrow, hrec⟩ := hrec
  have hle := amount_le_of_mem_allocations_rows (hbound u hu) hrow
  have hpos := amount_pos_of_mem_allocations_rows hrow
  unfold rowToCsv csv_header at hrec
  simp only [List.cons.injEq, and_true] at hrec
  exact toString_ne_amount hpos hle hrec.2.2.2

/-- The two concrete submissions used as witnesses: Choir 50 / Missions 50,
on two different days. -/
def demoSubs : List (AppState × String) :=
  [(exState, ts1), (exState, "2025-01-02T00:00:00")]

/-- C4: starting with no master file, a sequence of successful submissions
(each with in-range amounts and at least one positive entry) leaves the
master file holding the fixed four-column header exactly once, followed by
exactly the submissions' positive-amount records in submission order and
category/item enumeration order, every record carrying its submission's
shared timestamp; the data-record count is the sum of the submissions'
positive-entry counts. -/
theorem C4_master_file (subs : List (AppState × String))
    (sb0 : String → Option (List (List String)))
    (hN : subs ≠ [])
    (hne : ∀ u ∈ subs, allocations_rows u.1 u.2 ≠ [])
    (hbound : ∀ u ∈ subs, ∀ p ∈ PRIORITIES, ∀ item ∈ PRIORITY_ITEMS p,
      u.1.allocations p item ≤ 100) :
    (run_submissions ⟨none, sb0⟩ subs).2 = true ∧
    (run_submissions ⟨none, sb0⟩ subs).1.master
        = some (csv_header :: masterDataRecords subs) ∧
    (csv_header :: masterDataRecords subs).count csv_header = 1 ∧
    (masterDataRecords subs).length = (subs.map fun u => positive_entry_count u.1).sum ∧
    (∀ u ∈ subs, ∀ r ∈ allocations_rows u.1 u.2, r.timestamp = u.2) := by
  obtain ⟨u, rest, rfl⟩ : ∃ u rest, subs = u :: rest := by
    cases subs with
    | nil => exact absurd rfl hN
    | cons a l => exact ⟨a, l, rfl⟩
  obtain ⟨r, rs, hrs⟩ := List.exists_cons_of_ne_nil (hne u (List.mem_cons_self u rest))
  have hw : write_csv noFaults ⟨none, sb0⟩ (allocations_rows u.1 u.2)
      = (⟨some (csv_header :: (allocations_rows u.1 u.2).map rowToCsv),
          fun q => if q = per_submission_path r.timestamp
                   then some (csv_header :: (allocations_rows u.1 u.2).map rowToCsv)
                   else sb0 q⟩,
         WriteResult.returned true none) := by
    rw [hrs]; exact write_csv_cons_noMaster sb0 r rs
  rw [run_submissions_cons _ u rest _ true none hw]
  obtain ⟨ih1, ih2⟩ := run_submissions_someMaster rest
    (csv_header :: (allocations_rows u.1 u.2).map rowToCsv)
    (fun q => if q = per_submission_path r.timestamp
              then some (csv_header :: (allocations_rows u.1 u.2).map rowToCsv)
              else sb0 q)
    (fun v hv => hne v (List.mem_cons_of_mem u hv))
  refine ⟨?_, ?_, ?_, ?_, ?_⟩
  · rw [ih2]; rfl
  · rw [ih1]
    simp [masterDataRecords]
  · rw [List.count_cons_self, List.count_eq_zero.mpr
      (csv_header_not_mem_masterDataRecords (u :: rest) hbound)]
  · unfold masterDataRecords
    rw [List.length_flatten, List.map_map]
    congr 1
    apply List.map_congr_left
    intro v hv
    simp only [Function.comp_apply, List.length_map]
    exact length_allocations_rows v.1 v.2
  · intro v hv row hrow
    exact timestamp_of_mem_allocations_rows hrow

/-- C4 witness: two concrete successful submissions yield a master file
with the header once on top of both submissions' records. -/
theorem C4_master_file_witness :
    (run_submissions ⟨none, fun _ => none⟩ demoSubs).1.master
        = some (csv_header :: masterDataRecords demoSubs) ∧
    (csv_header :: masterDataRecords demoSubs).count csv_header = 1 := by
  have h := C4_master_file demoSubs (fun _ => none)
    (by unfold demoSubs; exact List.cons_ne_nil _ _) (by decide) (by decide)
  exact ⟨h.2.1, h.2.2.1⟩

/-- C5: after a fault-free submission, the per-submission file holds the
header plus exactly the rows of the submission, and re-reading it yields
exactly the `(category, item, amount)` tuples with positive amounts at
submit time — zero amounts are never persisted. -/
theorem C5_round_trip (s : AppState) (ts : String) (fs : FS)
    (hbound : ∀ p ∈ PRIORITIES, ∀ item ∈ PRIORITY_ITEMS p, s.allocations p item ≤ 100)
    (hne : allocations_rows s ts ≠ []) :
    ((write_csv noFaults fs (allocations_rows s ts)).1).submissions (per_submission_path ts)
        = some (csv_header :: (allocations_rows s ts).map rowToCsv) ∧
    readSubmission (csv_header :: (allocations_rows s ts).map rowToCsv) = positiveTuples s ∧
    (∀ t ∈ positiveTuples s, 0 < t.2.2) := by
  obtain ⟨r, rs, hrs⟩ := List.exists_cons_of_ne_nil hne
  have hts : r.timestamp = ts :=
    timestamp_of_mem_allocations_rows (by rw [hrs]; exact List.mem_cons_self r rs)
  obtain ⟨m, sb⟩ := fs
  refine ⟨?_, ?_, ?_⟩
  · rw [hrs]
    cases m with
    | none => rw [write_csv_cons_noMaster]; simp [hts]
    | some mm => rw [write_csv_cons_someMaster]; simp [hts]
  · unfold readSubmission
    rw [List.tail_cons, List.filterMap_map,
      filterMap_eq_map_of_forall (parseRecord ∘ rowToCsv)
        (fun row : Row => (row.priority, row.item, row.amount))
        (allocations_rows s ts)
        (fun row hrow => parseRecord_rowToCsv (amount_pos_of_mem_allocations_rows hrow)
          (amount_le_of_mem_allocations_rows hbound hrow))]
    exact map_proj_allocations_rows s ts
  · intro t ht
    unfold positiveTuples at ht
    rw [List.mem_flatMap] at ht
    obtain ⟨p, hp, ht⟩ := ht
    rw [List.mem_filterMap] at ht
    obtain ⟨item, hit, ht⟩ := ht
    rw [Option.ite_none_right_eq_some, Option.some.injEq] at ht
    obtain ⟨hpos, ht⟩ := ht
    subst ht
    exact hpos

/-- C5 witness: the concrete 50/50 submission round-trips to exactly its
two positive tuples. -/
theorem C5_round_trip_witness :
    readSubmission (csv_header :: (allocations_rows exState ts1).map rowToCsv)
      = positiveTuples exState :=
  (C5_round_trip exState ts1 fs0 (by decide) (by decide)).2.1

/-! ## Filename-derivation helpers -/

theorem digit_ne_colon {c : Char} (h : c.isDigit = true) : ¬ c = ':' := by
  intro hc
  subst hc
  exact absurd h (by decide)

theorem fileSafeChar_inj_at (i : Nat) (c d : Char) (hc : isoCharOk i c = true)
    (hd : isoCharOk i d = true) (h : fileSafeChar c = fileSafeChar d) : c = d := by
  unfold isoCharOk at hc hd
  split_ifs at hc hd
  · rw [beq_iff_eq] at hc hd; rw [hc, hd]
  · rw [beq_iff_eq] at hc hd; rw [hc, hd]
  · rw [beq_iff_eq] at hc hd; rw [hc, hd]
  · rw [beq_iff_eq] at hc hd; rw [hc, hd]
  · unfold fileSafeChar at h
    rw [if_neg (digit_ne_colon hc), if_neg (digit_ne_colon hd)] at h
    exact h

theorem iso_map_inj (cs : List Char) : ∀ (i : Nat) (ds : List Char),
    isoShapeAux i cs = true → isoShapeAux i ds = true →
    cs.map fileSafeChar = ds.map fileSafeChar → cs = ds := by
  induction cs with
  | nil =>
    intro i ds _ _ h
    cases ds with
    | nil => rfl
    | cons d ds => simp at h
  | cons c cs ih =>
    intro i ds hc hd h
    cases ds with
    | nil => simp at h
    | cons d ds =>
      simp only [List.map_cons, List.cons.injEq] at h
      simp only [isoShapeAux, Bool.and_eq_true] at hc hd
      rw [fileSafeChar_inj_at i c d hc.1 hd.1 h.1, ih (i + 1) ds hc.2 hd.2 h.2]

theorem fileSafeChar_ne_colon (a : Char) : fileSafeChar a ≠ ':' := by
  unfold fileSafeChar
  split
  · decide
  · assumption

/-- C6: on ISO-8601 timestamps (as `datetime.isoformat()` produces them)
the per-submission filename derivation is injective, and the derived
filename never contains a colon. -/
theorem C6_filename_derivation (s t : String)
    (hs : isIsoTimestamp s = true) (ht : isIsoTimestamp t = true) :
    (per_submission_filename s = per_submission_filename t → s = t) ∧
    (∀ c ∈ (per_submission_filename s).data, c ≠ ':') := by
  constructor
  · intro h
    have hdata : (per_submission_filename s).data = (per_submission_filename t).data := by
      rw [h]
    unfold per_submission_filename at hdata
    rw [String.data_append, String.data_append, String.data_append,
      String.data_append] at hdata
    have hmid : (replaceColons s).data = (replaceColons t).data := by
      rw [List.append_assoc, List.append_assoc] at hdata
      have h2 := List.append_cancel_left hdata
      exact List.append_cancel_right h2
    unfold isIsoTimestamp at hs ht
    rw [Bool.and_eq_true] at hs ht
    apply String.ext
    exact iso_map_inj s.data 0 t.data hs.2 ht.2 hmid
  · intro c hc
    unfold per_submission_filename at hc
    rw [String.data_append, String.data_append, List.mem_append, List.mem_append] at hc
    rcases hc with (hc | hc) | hc
    · exact (by decide : ∀ x ∈ ("submission_" : String).data, x ≠ ':') c hc
    · unfold replaceColons at hc
      rw [show (String.mk (s.data.map fileSafeChar)).data = s.data.map fileSafeChar from rfl,
        List.mem_map] at hc
      obtain ⟨a, _, rfl⟩ := hc
      exact fileSafeChar_ne_colon a
    · exact (by decide : ∀ x ∈ (".csv" : String).data, x ≠ ':') c hc

/-- C6 witness: a concrete ISO timestamp maps to itself injectively and its
derived filename is colon-free. -/
theorem C6_filename_derivation_witness :
    ("2024-01-02T03:04:05" : String) = "2024-01-02T03:04:05" ∧
    ':' ∉ (per_submission_filename "2024-01-02T03:04:05").data := by
  have h := C6_filename_derivation "2024-01-02T03:04:05" "2024-01-02T03:04:05"
    (by decide) (by decide)
  exact ⟨h.1 rfl, fun hm => h.2 ':' hm rfl⟩

end App
